import Mathlib

set_option maxHeartbeats 1000000

/-!
Shallow embedding of the inventory-ledger core of the Export Hub server
(`src/index.js`): the `POST /products`, `POST /imports`,
`DELETE /imports/:id` and `DELETE /products/:id` handlers together with
the document-store state they manipulate, and proofs of the testable
properties of the specification against this embedding.
-/

/-- A JavaScript number as it occurs in this server: either a genuine
number or the `NaN` produced by a failed `parseInt` / `parseFloat`
coercion.  All numbers relevant to the claims are integer-valued
(`parseInt` results and the quantities they feed), so genuine numbers
are carried as `Int`. -/
inductive JsNum where
  | nan : JsNum
  | num : Int → JsNum
deriving DecidableEq, Repr

/-- JavaScript `<` on numbers: every comparison involving NaN is false
(this is what makes `product.availableQuantity < parseInt(q)` pass when
either side is NaN, `src/index.js` line 787). -/
def JsNum.lt : JsNum → JsNum → Bool
  | .num a, .num b => decide (a < b)
  | _, _ => false

/-- JavaScript `+` on numbers (also the effect of a Mongo `$inc`): NaN is
absorbing. -/
def JsNum.add : JsNum → JsNum → JsNum
  | .num a, .num b => .num (a + b)
  | _, _ => .nan

/-- JavaScript unary minus, used for the `$inc: { availableQuantity: -q }`
stock decrement (`src/index.js` line 831). -/
def JsNum.neg : JsNum → JsNum
  | .num a => .num (-a)
  | .nan => .nan

/-- Whether the value is a genuine number (not NaN). -/
def JsNum.isNum : JsNum → Bool
  | .num _ => true
  | .nan => false

/-- Hexadecimal-digit test used for ObjectId well-formedness. -/
def isHexDigitChar (c : Char) : Bool :=
  c.isDigit || (('a' ≤ c) && (c ≤ 'f')) || (('A' ≤ c) && (c ≤ 'F'))

/-- Model of the mongodb driver's `ObjectId.isValid`, which is also the
condition under which `new ObjectId(s)` does not throw: a 24-character
hexadecimal string.  Ids are taken in canonical form throughout, so id
comparison is plain string equality. -/
def isValidObjectId (s : String) : Bool :=
  s.length == 24 && s.toList.all isHexDigitChar

/-- A document of the `products` collection, with the fields written by
`POST /products` (`src/index.js` lines 601-612).  `pid` is the string
form of the Mongo `_id`. -/
structure ProductDoc where
  pid : String
  productName : String
  productImage : String
  price : JsNum
  originCountry : String
  rating : JsNum
  availableQuantity : JsNum
  userEmail : String
  userName : String
  createdAt : Nat
  updatedAt : Nat
deriving DecidableEq, Repr

/-- A document of the `imports` collection, with the fields written by
`POST /imports` (`src/index.js` lines 810-822).  `iid` is the string form
of the Mongo `_id`; `productId` is stored as the raw request string. -/
structure ImportDoc where
  iid : String
  productId : String
  productName : String
  productImage : String
  price : JsNum
  rating : JsNum
  originCountry : String
  importedQuantity : JsNum
  userEmail : String
  userName : String
  createdAt : Nat
  updatedAt : Nat
deriving DecidableEq, Repr

/-- State of the document store: the products and imports collections.
(The users collection plays no role in the ledger claims.) -/
structure DB where
  products : List ProductDoc
  imports : List ImportDoc
deriving DecidableEq, Repr

/-- Body of a `POST /imports` request after JavaScript destructuring.
A string field is `none` when the raw value is falsy (absent, empty, …),
which is exactly what the handler's `!field` presence checks test.  For
`importedQuantity` the handler tests truthiness of the raw value but
computes with `parseInt` of it, so the request carries both: `iqTruthy`
(raw truthiness) and `iq` (the `parseInt` result, NaN when the raw value
does not parse). -/
structure ImportReq where
  productId : Option String
  productName : Option String
  productImage : String
  price : JsNum
  rating : JsNum
  originCountry : String
  iqTruthy : Bool
  iq : JsNum
  userEmail : Option String
  userName : Option String
deriving DecidableEq, Repr

/-- Body of a `POST /products` request, same conventions as `ImportReq`:
numeric fields carry raw truthiness plus their coercion result. -/
structure ProductReq where
  productName : Option String
  productImage : Option String
  priceTruthy : Bool
  price : JsNum
  originCountry : Option String
  ratingTruthy : Bool
  rating : JsNum
  aqTruthy : Bool
  availableQuantity : JsNum
  userEmail : Option String
  userName : Option String
deriving DecidableEq, Repr

/-- Error taxonomy of the handlers' non-2xx responses. `unexpected` is
the catch-all 500 produced when a handler's try/catch traps a thrown
exception (e.g. `new ObjectId` on a malformed token). -/
inductive ApiError where
  | validation : String → ApiError
  | notFound : String → ApiError
  | conflict : Nat → ApiError
  | insufficientStock : ApiError
  | unexpected : ApiError
deriving DecidableEq, Repr

/-- HTTP status carried by each error kind in the handlers. -/
def httpStatus : ApiError → Nat
  | .validation _ => 400
  | .notFound _ => 404
  | .conflict _ => 400
  | .insufficientStock => 400
  | .unexpected => 500

/-- Mongo `updateOne`: update the first document matching the filter. -/
def updateFirst {α : Type} (p : α → Bool) (f : α → α) : List α → List α
  | [] => []
  | x :: xs => if p x then f x :: xs else x :: updateFirst p f xs

/-- Mongo `deleteOne`: delete the first document matching the filter. -/
def deleteFirst {α : Type} (p : α → Bool) : List α → List α
  | [] => []
  | x :: xs => if p x then xs else x :: deleteFirst p xs

/-- `productsCollection.findOne({ _id: new ObjectId(pid) })` for an
already well-formed `pid`. -/
def findProduct (db : DB) (pid : String) : Option ProductDoc :=
  db.products.find? (fun p => p.pid == pid)

/-- `importsCollection.findOne({ productId, userEmail })` — the
merge key lookup of `POST /imports` (`src/index.js` lines 794-797). -/
def findImportByKey (db : DB) (pid email : String) : Option ImportDoc :=
  db.imports.find? (fun i => i.productId == pid && i.userEmail == email)

/-- The imports outstanding against product id `pid` (the documents the
`DELETE /products/:id` guard counts, `src/index.js` lines 722-724). -/
def refsFor (db : DB) (pid : String) : List ImportDoc :=
  db.imports.filter (fun i => i.productId == pid)

/-- The `_id` tokens of the imports collection. -/
def importIds (db : DB) : List String :=
  db.imports.map (fun i => i.iid)

/-- `POST /products` handler (`src/index.js` lines 581-628): presence
check on all seven fields via JavaScript truthiness, then insert with
`parseFloat`/`parseInt` coercions applied and `userName` defaulted. -/
def createProduct (db : DB) (req : ProductReq) (now : Nat) (freshId : String) :
    DB × Except ApiError String :=
  if req.productName.isNone || req.productImage.isNone || !req.priceTruthy ||
      req.originCountry.isNone || !req.ratingTruthy || !req.aqTruthy ||
      req.userEmail.isNone then
    (db, .error (.validation "All fields are required"))
  else
    let product : ProductDoc := {
      pid := freshId
      productName := req.productName.getD ""
      productImage := req.productImage.getD ""
      price := req.price
      originCountry := req.originCountry.getD ""
      rating := req.rating
      availableQuantity := req.availableQuantity
      userEmail := req.userEmail.getD ""
      userName := req.userName.getD "Anonymous"
      createdAt := now
      updatedAt := now }
    ({ db with products := db.products ++ [product] }, .ok freshId)

/-- `POST /imports` handler (`src/index.js` lines 757-848): presence
check on productId/productName/userEmail/importedQuantity; then
`new ObjectId(productId)` (which throws — caught as the generic 500 —
on a malformed token: the handler has no `ObjectId.isValid` pre-check);
product lookup; availability check `availableQuantity < parseInt(q)`;
merge into the existing (productId, userEmail) import via `$inc`, or
insert a fresh import document; finally the unconditional stock
decrement `$inc: { availableQuantity: -parseInt(q) }`. -/
def createImport (db : DB) (req : ImportReq) (now : Nat) (freshId : String) :
    DB × Except ApiError String :=
  if req.productId.isNone || req.productName.isNone || req.userEmail.isNone ||
      !req.iqTruthy then
    (db, .error (.validation "Required fields missing"))
  else
    let pid := req.productId.getD ""
    if !isValidObjectId pid then
      (db, .error .unexpected)
    else
      match findProduct db pid with
      | none => (db, .error (.notFound "Product not found"))
      | some product =>
        if JsNum.lt product.availableQuantity req.iq then
          (db, .error .insufficientStock)
        else
          let email := req.userEmail.getD ""
          let decrement := fun (ps : List ProductDoc) =>
            updateFirst (fun p => p.pid == pid)
              (fun p => { p with
                availableQuantity := p.availableQuantity.add req.iq.neg
                updatedAt := now }) ps
          match findImportByKey db pid email with
          | some existingImport =>
            let imports2 := updateFirst (fun i => i.iid == existingImport.iid)
              (fun i => { i with
                importedQuantity := i.importedQuantity.add req.iq
                updatedAt := now }) db.imports
            ({ products := decrement db.products, imports := imports2 },
              .ok existingImport.iid)
          | none =>
            let importData : ImportDoc := {
              iid := freshId
              productId := pid
              productName := req.productName.getD ""
              productImage := req.productImage
              price := req.price
              rating := req.rating
              originCountry := req.originCountry
              importedQuantity := req.iq
              userEmail := email
              userName := req.userName.getD "Anonymous"
              createdAt := now
              updatedAt := now }
            ({ products := decrement db.products,
               imports := db.imports ++ [importData] }, .ok freshId)

/-- `DELETE /imports/:id` handler (`src/index.js` lines 936-977):
`ObjectId.isValid` check on the URL token, import lookup, restore of the
quantity onto the referenced product via `$inc` (the filter builds
`new ObjectId(importData.productId)`, which throws — caught as the
generic 500 — if the stored token is malformed), then `deleteOne` of the import.
-/
def removeImport (db : DB) (id : String) (now : Nat) :
    DB × Except ApiError Unit :=
  if !isValidObjectId id then
    (db, .error (.validation "Invalid import ID"))
  else
    match db.imports.find? (fun i => i.iid == id) with
    | none => (db, .error (.notFound "Import not found"))
    | some importData =>
      if !isValidObjectId importData.productId then
        (db, .error .unexpected)
      else
        let products2 := updateFirst (fun p => p.pid == importData.productId)
          (fun p => { p with
            availableQuantity := p.availableQuantity.add importData.importedQuantity
            updatedAt := now }) db.products
        ({ products := products2,
           imports := deleteFirst (fun i => i.iid == id) db.imports }, .ok ())

/-- `DELETE /products/:id` handler (`src/index.js` lines 711-755):
`ObjectId.isValid` check, then the outstanding-import guard
(`countDocuments({ productId: id })` — run BEFORE any existence check),
then `deleteOne` with a 404 when nothing was deleted. -/
def deleteProduct (db : DB) (id : String) :
    DB × Except ApiError Unit :=
  if !isValidObjectId id then
    (db, .error (.validation "Invalid product ID"))
  else
    let importCount := (refsFor db id).length
    if 0 < importCount then
      (db, .error (.conflict importCount))
    else
      match findProduct db id with
      | none => (db, .error (.notFound "Product not found"))
      | some _ =>
        ({ db with products := deleteFirst (fun p => p.pid == id) db.products },
          .ok ())

/-- Sum (JavaScript `+`) of the `importedQuantity` of the imports
referencing `pid` in the given imports list. -/
def sumFor (pid : String) : List ImportDoc → JsNum
  | [] => .num 0
  | i :: rest =>
    if i.productId == pid then i.importedQuantity.add (sumFor pid rest)
    else sumFor pid rest

/-- The conserved quantity of the specification for one product:
`availableQuantity + Σ(outstanding importedQuantity)`, `none` when the
product is not in the store. -/
def availPlusSum (db : DB) (pid : String) : Option JsNum :=
  (findProduct db pid).map
    (fun p => p.availableQuantity.add (sumFor pid db.imports))

/-- One ledger operation: a `POST /imports` (with its clock value and the
fresh `_id` the store would assign on insert) or a `DELETE /imports/:id`. -/
inductive LedgerOp where
  | createOp : ImportReq → Nat → String → LedgerOp
  | removeOp : String → Nat → LedgerOp
deriving DecidableEq, Repr

/-- The store state after one ledger operation. -/
def applyOp (db : DB) : LedgerOp → DB
  | .createOp req now freshId => (createImport db req now freshId).1
  | .removeOp id now => (removeImport db id now).1

/-- Whether one ledger operation succeeds (2xx response) on `db`. -/
def opOk (db : DB) : LedgerOp → Bool
  | .createOp req now freshId => (createImport db req now freshId).2.isOk
  | .removeOp id now => (removeImport db id now).2.isOk

/-- Store-guaranteed freshness of the `_id` an insert would use: Mongo
never assigns an `_id` already present in the collection. -/
def opFresh (db : DB) : LedgerOp → Bool
  | .createOp _ _ freshId => !((importIds db).contains freshId)
  | .removeOp _ _ => true

/-- Run a sequence of ledger operations left to right. -/
def runOps : DB → List LedgerOp → DB
  | db, [] => db
  | db, op :: rest => runOps (applyOp db op) rest

/-- Every operation of the sequence, run sequentially, individually
succeeds (and inserts use store-fresh ids). -/
def allOk : DB → List LedgerOp → Bool
  | _, [] => true
  | db, op :: rest => opOk db op && opFresh db op && allOk (applyOp db op) rest

/-- Whether a ledger operation is a CreateImport against product `pid`
whose coerced quantity is a genuine number (needed because a quantity
coercing to NaN passes the availability check and poisons the stock). -/
def opNumFor (pid : String) : LedgerOp → Bool
  | .createOp req _ _ => if req.productId == some pid then req.iq.isNum else true
  | .removeOp _ _ => true

/-- At most one import document per (productId, userEmail) pair. -/
def AtMostOnePerKey (db : DB) : Prop :=
  ∀ pid email,
    (db.imports.filter
      (fun i => i.productId == pid && i.userEmail == email)).length ≤ 1

/-- The imports of the store keyed by (productId, userEmail). -/
def keyImports (db : DB) (pid email : String) : List ImportDoc :=
  db.imports.filter (fun i => i.productId == pid && i.userEmail == email)


/-! ### Concrete sample data used to instantiate theorems on closed stores -/

/-- A well-formed product id token. -/
def pidA : String := "aaaaaaaaaaaaaaaaaaaaaaaa"

/-- A second well-formed id token (used as a fresh import `_id`). -/
def iidB : String := "bbbbbbbbbbbbbbbbbbbbbbbb"

/-- A third well-formed id token. -/
def pidC : String := "cccccccccccccccccccccccc"

/-- A malformed id token (`new ObjectId` would throw on it). -/
def badToken : String := "zzz"

/-- A sample product with 10 units of stock. -/
def prodA : ProductDoc :=
  { pid := pidA, productName := "Tea", productImage := "img", price := .num 5
    originCountry := "BD", rating := .num 4, availableQuantity := .num 10
    userEmail := "owner@x.com", userName := "Owner", createdAt := 0, updatedAt := 0 }

/-- A store holding just `prodA` and no imports. -/
def dbA : DB := { products := [prodA], imports := [] }

/-- A sample import of 4 units of `prodA` by user `a@x.com`. -/
def impB : ImportDoc :=
  { iid := iidB, productId := pidA, productName := "Tea", productImage := "img"
    price := .num 5, rating := .num 4, originCountry := "BD"
    importedQuantity := .num 4, userEmail := "a@x.com", userName := "A"
    createdAt := 1, updatedAt := 1 }

/-- A store holding `prodA` with the outstanding import `impB`. -/
def dbAB : DB := { products := [prodA], imports := [impB] }

/-- A store holding the import `impB` but no product at all (its product
reference is dangling). -/
def dbOrphan : DB := { products := [], imports := [impB] }

/-- A sample `POST /imports` request against `prodA` by user `a@x.com`
with the given coerced quantity. -/
def sampleReq (q : JsNum) : ImportReq :=
  { productId := some pidA, productName := some "Tea", productImage := "img"
    price := .num 5, rating := .num 4, originCountry := "BD"
    iqTruthy := true, iq := q, userEmail := some "a@x.com", userName := some "A" }

/-- A sample `POST /products` request whose `availableQuantity` raw value
is truthy (e.g. the string "abc") and carries the given coercion result. -/
def sampleProductReq (aq : JsNum) : ProductReq :=
  { productName := some "Rice", productImage := some "img", priceTruthy := true
    price := .num 7, originCountry := "BD", ratingTruthy := true, rating := .num 3
    aqTruthy := true, availableQuantity := aq, userEmail := some "owner@x.com"
    userName := some "Owner" }

/-! ### Arithmetic facts about `JsNum` -/

theorem JsNum.add_num (a b : Int) : (JsNum.num a).add (JsNum.num b) = JsNum.num (a + b) := rfl

theorem JsNum.add_eq_num {u v : JsNum} {w : Int} (h : u.add v = JsNum.num w) :
    ∃ a b, u = JsNum.num a ∧ v = JsNum.num b ∧ a + b = w := by
  cases u with
  | nan => simp [JsNum.add] at h
  | num a =>
    cases v with
    | nan => simp [JsNum.add] at h
    | num b =>
      refine ⟨a, b, rfl, rfl, ?_⟩
      simpa [JsNum.add] using h

/-! ### Generic facts about `updateFirst`, `deleteFirst` and `find?` -/

theorem find?_updateFirst_same {α : Type} (p : α → Bool) (f : α → α)
    (hf : ∀ x, p (f x) = p x) (l : List α) :
    (updateFirst p f l).find? p = (l.find? p).map f := by
  induction l with
  | nil => simp [updateFirst]
  | cons x xs ih =>
    by_cases hx : p x = true
    · simp [updateFirst, hx, List.find?_cons_of_pos, hf x]
    · have hx' : p x = false := by simpa using hx
      simp [updateFirst, hx', List.find?_cons_of_neg, ih]

theorem find?_updateFirst_disjoint {α : Type} (p q : α → Bool) (f : α → α)
    (hf : ∀ x, q (f x) = q x) (hpq : ∀ x, p x = true → q x = false) (l : List α) :
    (updateFirst p f l).find? q = l.find? q := by
  induction l with
  | nil => simp [updateFirst]
  | cons x xs ih =>
    by_cases hx : p x = true
    · have hqx : q x = false := hpq x hx
      have hqfx : q (f x) = false := by rw [hf]; exact hqx
      simp [updateFirst, hx, List.find?_cons_of_neg, hqx, hqfx]
    · have hx' : p x = false := by simpa using hx
      by_cases hqx : q x = true
      · simp [updateFirst, hx', List.find?_cons_of_pos, hqx]
      · have hqx' : q x = false := by simpa using hqx
        simp [updateFirst, hx', List.find?_cons_of_neg, hqx', ih]

theorem map_updateFirst {α β : Type} (g : α → β) (p : α → Bool) (f : α → α)
    (hg : ∀ x, g (f x) = g x) (l : List α) :
    (updateFirst p f l).map g = l.map g := by
  induction l with
  | nil => simp [updateFirst]
  | cons x xs ih =>
    by_cases hx : p x = true
    · simp [updateFirst, hx, hg x]
    · have hx' : p x = false := by simpa using hx
      simp [updateFirst, hx', ih]

theorem updateFirst_append_left {α : Type} (p : α → Bool) (f : α → α)
    (l₁ l₂ : List α) (h : ∀ x ∈ l₁, p x = false) :
    updateFirst p f (l₁ ++ l₂) = l₁ ++ updateFirst p f l₂ := by
  induction l₁ with
  | nil => simp
  | cons x xs ih =>
    have hx : p x = false := h x (List.mem_cons_self x xs)
    simp [updateFirst, hx, ih (fun y hy => h y (List.mem_cons_of_mem x hy))]

theorem deleteFirst_sublist {α : Type} (p : α → Bool) (l : List α) :
    (deleteFirst p l).Sublist l := by
  induction l with
  | nil => simp [deleteFirst]
  | cons x xs ih =>
    by_cases hx : p x = true
    · simp only [deleteFirst, if_pos hx]
      exact List.sublist_cons_self x xs
    · have hx' : p x = false := by simpa using hx
      simpa [deleteFirst, hx'] using ih.cons₂ x

theorem find?_mem_nodup {α β : Type} [BEq β] [LawfulBEq β] (g : α → β)
    {l : List α} {e : α} (hg : (l.map g).Nodup) (he : e ∈ l) :
    l.find? (fun x => g x == g e) = some e := by
  induction l with
  | nil => simp at he
  | cons x xs ih =>
    rcases List.mem_cons.mp he with rfl | hmem
    · exact List.find?_cons_of_pos _ (by simp)
    · have hne : ¬(g x == g e) = true := by
        intro hbeq
        have hgx : g x = g e := by simpa using hbeq
        have : g e ∈ xs.map g := List.mem_map_of_mem g hmem
        rw [← hgx] at this
        exact (List.nodup_cons.mp (by simpa using hg)).1 this
      rw [@List.find?_cons_of_neg _ (fun y => g y == g e) x xs hne]
      exact ih (List.nodup_cons.mp (by simpa using hg)).2 hmem

theorem find?_deleteFirst_nodup {α β : Type} [BEq β] [LawfulBEq β] (g : α → β)
    {l : List α} (a : β) (hg : (l.map g).Nodup) :
    (deleteFirst (fun x => g x == a) l).find? (fun x => g x == a) = none := by
  induction l with
  | nil => simp [deleteFirst]
  | cons x xs ih =>
    by_cases hx : (g x == a) = true
    · have hga : g x = a := by simpa using hx
      rw [deleteFirst, if_pos hx]
      rw [List.find?_eq_none]
      intro y hy hya
      have hgy : g y = a := by simpa using hya
      have : g y ∈ xs.map g := List.mem_map_of_mem g hy
      rw [hgy, ← hga] at this
      exact (List.nodup_cons.mp (by simpa using hg)).1 this
    · have hx' : (g x == a) = false := by simpa using hx
      rw [deleteFirst, if_neg hx]
      rw [@List.find?_cons_of_neg _ (fun y => g y == a) x (deleteFirst (fun y => g y == a) xs) hx]
      exact ih (List.nodup_cons.mp (by simpa using hg)).2

theorem updateFirst_of_find? {α : Type} (p : α → Bool) (f : α → α)
    {l : List α} {e : α} (hfind : l.find? p = some e) :
    ∃ l₁ l₂, l = l₁ ++ e :: l₂ ∧ (∀ x ∈ l₁, p x = false) ∧
      updateFirst p f l = l₁ ++ f e :: l₂ ∧
      deleteFirst p l = l₁ ++ l₂ := by
  induction l with
  | nil => simp at hfind
  | cons x xs ih =>
    by_cases hx : p x = true
    · rw [List.find?_cons_of_pos _ hx] at hfind
      obtain rfl : x = e := by injection hfind
      exact ⟨[], xs, by simp, by simp, by simp [updateFirst, hx], by simp [deleteFirst, hx]⟩
    · have hx' : p x = false := by simpa using hx
      rw [List.find?_cons_of_neg _ hx] at hfind
      obtain ⟨l₁, l₂, hsplit, hall, hupd, hdel⟩ := ih hfind
      refine ⟨x :: l₁, l₂, by simp [hsplit], ?_, ?_, ?_⟩
      · intro y hy
        rcases List.mem_cons.mp hy with rfl | hmem
        · exact hx'
        · exact hall y hmem
      · simp [updateFirst, hx', hupd]
      · simp [deleteFirst, hx', hdel]

/-! ### Facts about `sumFor` -/

theorem sumFor_eq_zero (pid : String) (l : List ImportDoc)
    (h : ∀ i ∈ l, (i.productId == pid) = false) : sumFor pid l = .num 0 := by
  induction l with
  | nil => rfl
  | cons x xs ih =>
    rw [sumFor, if_neg (by simp [h x (List.mem_cons_self x xs)])]
    exact ih fun i hi => h i (List.mem_cons_of_mem x hi)

theorem sumFor_insert_nomatch (pid : String) (y : ImportDoc) (l₁ l₂ : List ImportDoc)
    (hy : (y.productId == pid) = false) :
    sumFor pid (l₁ ++ y :: l₂) = sumFor pid (l₁ ++ l₂) := by
  induction l₁ with
  | nil => simp [sumFor, hy]
  | cons x xs ih =>
    by_cases hx : (x.productId == pid) = true
    · simp only [List.cons_append]
      rw [sumFor, if_pos hx, sumFor, if_pos hx, ih]
    · simp only [List.cons_append]
      rw [sumFor, if_neg hx, sumFor, if_neg hx, ih]

theorem sumFor_insert (pid : String) (y : ImportDoc) (l₁ l₂ : List ImportDoc)
    {s q : Int} (hs : sumFor pid (l₁ ++ l₂) = .num s)
    (hy : (y.productId == pid) = true) (hq : y.importedQuantity = .num q) :
    sumFor pid (l₁ ++ y :: l₂) = .num (s + q) := by
  induction l₁ generalizing s with
  | nil =>
    simp only [List.nil_append] at hs ⊢
    rw [sumFor, if_pos hy, hq, hs, JsNum.add_num, Int.add_comm]
  | cons x xs ih =>
    simp only [List.cons_append] at hs ⊢
    by_cases hx : (x.productId == pid) = true
    · rw [sumFor, if_pos hx] at hs
      obtain ⟨a, b, hxa, hrest, hab⟩ := JsNum.add_eq_num hs
      rw [sumFor, if_pos hx, hxa, ih hrest, JsNum.add_num]
      congr 1
      omega
    · rw [sumFor, if_neg hx] at hs
      rw [sumFor, if_neg hx]
      exact ih hs

theorem sumFor_extract (pid : String) (e : ImportDoc) (l₁ l₂ : List ImportDoc)
    {s : Int} (hs : sumFor pid (l₁ ++ e :: l₂) = .num s)
    (he : (e.productId == pid) = true) :
    ∃ v b, e.importedQuantity = .num v ∧ sumFor pid (l₁ ++ l₂) = .num b ∧ v + b = s := by
  induction l₁ generalizing s with
  | nil =>
    simp only [List.nil_append] at hs ⊢
    rw [sumFor, if_pos he] at hs
    obtain ⟨v, b, hv, hb, hvb⟩ := JsNum.add_eq_num hs
    exact ⟨v, b, hv, hb, hvb⟩
  | cons x xs ih =>
    simp only [List.cons_append] at hs ⊢
    by_cases hx : (x.productId == pid) = true
    · rw [sumFor, if_pos hx] at hs
      obtain ⟨a, b, hxa, hrest, hab⟩ := JsNum.add_eq_num hs
      obtain ⟨v, b', hv, hb', hvb'⟩ := ih hrest
      refine ⟨v, a + b', hv, ?_, by omega⟩
      rw [sumFor, if_pos hx, hxa, hb', JsNum.add_num]
    · rw [sumFor, if_neg hx] at hs
      obtain ⟨v, b', hv, hb', hvb'⟩ := ih hs
      refine ⟨v, b', hv, ?_, hvb'⟩
      rw [sumFor, if_neg hx]
      exact hb'

theorem createImport_ok_cases {db : DB} {req : ImportReq} {now : Nat} {fid : String}
    (h : (createImport db req now fid).2.isOk = true) :
    ∃ pid nm email product, req.productId = some pid ∧ req.productName = some nm ∧
      req.userEmail = some email ∧ req.iqTruthy = true ∧ isValidObjectId pid = true ∧
      findProduct db pid = some product ∧
      JsNum.lt product.availableQuantity req.iq = false := by
  rcases hpid : req.productId with _ | pid
  · simp [createImport, hpid, Except.isOk, Except.toBool] at h
  rcases hnm : req.productName with _ | nm
  · simp [createImport, hpid, hnm, Except.isOk, Except.toBool] at h
  rcases hmail : req.userEmail with _ | email
  · simp [createImport, hpid, hnm, hmail, Except.isOk, Except.toBool] at h
  rcases hiq : req.iqTruthy with _ | _
  · simp [createImport, hpid, hnm, hmail, hiq, Except.isOk, Except.toBool] at h
  rcases hvalid : isValidObjectId pid with _ | _
  · simp [createImport, hpid, hnm, hmail, hiq, hvalid, Except.isOk, Except.toBool] at h
  rcases hfind : findProduct db pid with _ | product
  · simp [createImport, hpid, hnm, hmail, hiq, hvalid, hfind, Except.isOk, Except.toBool] at h
  rcases hlt : JsNum.lt product.availableQuantity req.iq with _ | _
  · exact ⟨pid, nm, email, product, rfl, rfl, rfl, rfl, hvalid, hfind, hlt⟩
  · simp [createImport, hpid, hnm, hmail, hiq, hvalid, hfind, hlt, Except.isOk, Except.toBool] at h

theorem createImport_merge_eq {db : DB} {req : ImportReq} {now : Nat} {fid : String}
    {pid nm email : String} {product : ProductDoc} {e : ImportDoc}
    (hpid : req.productId = some pid) (hnm : req.productName = some nm)
    (hmail : req.userEmail = some email) (hiq : req.iqTruthy = true)
    (hvalid : isValidObjectId pid = true) (hfind : findProduct db pid = some product)
    (hlt : JsNum.lt product.availableQuantity req.iq = false)
    (hkey : findImportByKey db pid email = some e) :
    createImport db req now fid =
      ({ products := updateFirst (fun p => p.pid == pid)
           (fun p => { p with availableQuantity := p.availableQuantity.add req.iq.neg,
                              updatedAt := now }) db.products,
         imports := updateFirst (fun i => i.iid == e.iid)
           (fun i => { i with importedQuantity := i.importedQuantity.add req.iq,
                              updatedAt := now }) db.imports },
        .ok e.iid) := by
  simp [createImport, hpid, hnm, hmail, hiq, hvalid, hfind, hlt, hkey]

theorem createImport_insert_eq {db : DB} {req : ImportReq} {now : Nat} {fid : String}
    {pid nm email : String} {product : ProductDoc}
    (hpid : req.productId = some pid) (hnm : req.productName = some nm)
    (hmail : req.userEmail = some email) (hiq : req.iqTruthy = true)
    (hvalid : isValidObjectId pid = true) (hfind : findProduct db pid = some product)
    (hlt : JsNum.lt product.availableQuantity req.iq = false)
    (hkey : findImportByKey db pid email = none) :
    createImport db req now fid =
      ({ products := updateFirst (fun p => p.pid == pid)
           (fun p => { p with availableQuantity := p.availableQuantity.add req.iq.neg,
                              updatedAt := now }) db.products,
         imports := db.imports ++
           [{ iid := fid, productId := pid, productName := nm,
              productImage := req.productImage, price := req.price, rating := req.rating,
              originCountry := req.originCountry, importedQuantity := req.iq,
              userEmail := email, userName := req.userName.getD "Anonymous",
              createdAt := now, updatedAt := now }] },
        .ok fid) := by
  simp [createImport, hpid, hnm, hmail, hiq, hvalid, hfind, hlt, hkey]

theorem removeImport_ok_cases {db : DB} {id : String} {now : Nat}
    (h : (removeImport db id now).2.isOk = true) :
    ∃ e, isValidObjectId id = true ∧
      db.imports.find? (fun i => i.iid == id) = some e ∧
      isValidObjectId e.productId = true := by
  rcases hvalid : isValidObjectId id with _ | _
  · simp [removeImport, hvalid, Except.isOk, Except.toBool] at h
  rcases hfind : db.imports.find? (fun i => i.iid == id) with _ | e
  · simp [removeImport, hvalid, hfind, Except.isOk, Except.toBool] at h
  rcases hpv : isValidObjectId e.productId with _ | _
  · simp [removeImport, hvalid, hfind, hpv, Except.isOk, Except.toBool] at h
  · exact ⟨e, rfl, hfind, hpv⟩

theorem removeImport_eq {db : DB} {id : String} {now : Nat} {e : ImportDoc}
    (hvalid : isValidObjectId id = true)
    (hfind : db.imports.find? (fun i => i.iid == id) = some e)
    (hpvalid : isValidObjectId e.productId = true) :
    removeImport db id now =
      ({ products := updateFirst (fun p => p.pid == e.productId)
           (fun p => { p with availableQuantity := p.availableQuantity.add e.importedQuantity,
                              updatedAt := now }) db.products,
         imports := deleteFirst (fun i => i.iid == id) db.imports },
        .ok ()) := by
  simp [removeImport, hvalid, hfind, hpvalid]

theorem createImport_step {db : DB} {req : ImportReq} {now : Nat} {fid : String}
    {pid : String} {Q0 : Int}
    (hok : (createImport db req now fid).2.isOk = true)
    (hfresh : fid ∉ importIds db)
    (hnum : opNumFor pid (.createOp req now fid) = true)
    (hnodup : (importIds db).Nodup)
    (hinv : availPlusSum db pid = some (.num Q0)) :
    availPlusSum (createImport db req now fid).1 pid = some (.num Q0) ∧
      (importIds (createImport db req now fid).1).Nodup := by
  obtain ⟨tgt, nm, email, product, hpid, hnm, hmail, hiq, hvalid, hfind, hlt⟩ :=
    createImport_ok_cases hok
  rcases hp : findProduct db pid with _ | p
  · rw [availPlusSum, hp] at hinv
    simp at hinv
  have hps : p.availableQuantity.add (sumFor pid db.imports) = .num Q0 := by
    rw [availPlusSum, hp] at hinv
    simpa using hinv
  obtain ⟨a, s, ha, hsum, has⟩ := JsNum.add_eq_num hps
  have hp' : List.find? (fun x => x.pid == pid) db.products = some p := by
    rw [findProduct] at hp
    exact hp
  rcases hkey : findImportByKey db tgt email with _ | e
  -- insert branch
  · rw [createImport_insert_eq hpid hnm hmail hiq hvalid hfind hlt hkey]
    by_cases htgt : tgt = pid
    · subst htgt
      have hisnum : req.iq.isNum = true := by
        rw [opNumFor, hpid] at hnum
        simpa using hnum
      obtain ⟨q, hiqn⟩ : ∃ q, req.iq = JsNum.num q := by
        rcases hn : req.iq with _ | q
        · rw [hn] at hisnum
          simp [JsNum.isNum] at hisnum
        · exact ⟨q, rfl⟩
      constructor
      · rw [availPlusSum]
        have hfp := find?_updateFirst_same (fun x => x.pid == tgt)
          (fun p => { p with availableQuantity := p.availableQuantity.add req.iq.neg,
                             updatedAt := now }) (fun x => rfl) db.products
        rw [findProduct]
        simp only []
        rw [hfp, hp']
        have hsum2 : sumFor tgt (db.imports ++ []) = .num s := by
          rw [List.append_nil]
          exact hsum
        have hins := sumFor_insert tgt
          ({ iid := fid, productId := tgt, productName := nm,
             productImage := req.productImage, price := req.price, rating := req.rating,
             originCountry := req.originCountry, importedQuantity := req.iq,
             userEmail := email, userName := req.userName.getD "Anonymous",
             createdAt := now, updatedAt := now } : ImportDoc)
          db.imports [] hsum2 (by simp) hiqn
        rw [hins]
        simp only [Option.map_some', ha, hiqn, JsNum.neg, JsNum.add_num]
        have harith : a + -q + (s + q) = Q0 := by omega
        rw [harith]
      · rw [importIds]
        simp only [List.map_append, List.map_cons, List.map_nil]
        rw [List.nodup_append]
        refine ⟨hnodup, List.nodup_singleton _, ?_⟩
        rw [List.disjoint_singleton]
        exact hfresh
    · constructor
      · rw [availPlusSum]
        have hfp := find?_updateFirst_disjoint (fun x => x.pid == tgt)
          (fun x => x.pid == pid)
          (fun p => { p with availableQuantity := p.availableQuantity.add req.iq.neg,
                             updatedAt := now })
          (fun x => rfl)
          (fun x hx => by
            have hxx : x.pid = tgt := by simpa using hx
            simp only [hxx]
            simpa using htgt) db.products
        rw [findProduct]
        simp only []
        rw [hfp, hp']
        have hnom := sumFor_insert_nomatch pid
          ({ iid := fid, productId := tgt, productName := nm,
             productImage := req.productImage, price := req.price, rating := req.rating,
             originCountry := req.originCountry, importedQuantity := req.iq,
             userEmail := email, userName := req.userName.getD "Anonymous",
             createdAt := now, updatedAt := now } : ImportDoc)
          db.imports [] (by simpa using htgt)
        simp only [Option.map_some', hnom, List.append_nil]
        rw [hps]
      · rw [importIds]
        simp only [List.map_append, List.map_cons, List.map_nil]
        rw [List.nodup_append]
        refine ⟨hnodup, List.nodup_singleton _, ?_⟩
        rw [List.disjoint_singleton]
        exact hfresh
  -- merge branch
  · rw [createImport_merge_eq hpid hnm hmail hiq hvalid hfind hlt hkey]
    have hkey' : List.find? (fun i => i.productId == tgt && i.userEmail == email)
        db.imports = some e := by
      rw [findImportByKey] at hkey
      exact hkey
    have hemem : e ∈ db.imports := List.mem_of_find?_eq_some hkey'
    have hekp := List.find?_some hkey'
    have hepid : e.productId = tgt := by
      have hsplit2 := (Bool.and_eq_true _ _).mp hekp
      simpa using hsplit2.1
    have hnodup' : (db.imports.map (fun i => i.iid)).Nodup := hnodup
    have hfind_iid : db.imports.find? (fun x => x.iid == e.iid) = some e :=
      find?_mem_nodup (fun i => i.iid) hnodup' hemem
    obtain ⟨l₁, l₂, hsplit, hall, hupd, hdel⟩ :=
      updateFirst_of_find? (fun x : ImportDoc => x.iid == e.iid)
        (fun i : ImportDoc =>
          { i with importedQuantity := i.importedQuantity.add req.iq,
                   updatedAt := now }) hfind_iid
    by_cases htgt : tgt = pid
    · subst htgt
      have hisnum : req.iq.isNum = true := by
        rw [opNumFor, hpid] at hnum
        simpa using hnum
      obtain ⟨q, hiqn⟩ : ∃ q, req.iq = JsNum.num q := by
        rcases hn : req.iq with _ | q
        · rw [hn] at hisnum
          simp [JsNum.isNum] at hisnum
        · exact ⟨q, rfl⟩
      rw [hsplit] at hsum
      obtain ⟨v, b, hv, hb, hvb⟩ := sumFor_extract tgt e l₁ l₂ hsum (by simp [hepid])
      constructor
      · rw [availPlusSum]
        have hfp := find?_updateFirst_same (fun x => x.pid == tgt)
          (fun p => { p with availableQuantity := p.availableQuantity.add req.iq.neg,
                             updatedAt := now }) (fun x => rfl) db.products
        rw [findProduct]
        simp only []
        rw [hfp, hp', hupd]
        have hfq : ({ e with importedQuantity := e.importedQuantity.add req.iq,
                             updatedAt := now } : ImportDoc).importedQuantity =
            JsNum.num (v + q) := by
          simp [hv, hiqn, JsNum.add_num]
        have hins := sumFor_insert tgt
          ({ e with importedQuantity := e.importedQuantity.add req.iq, updatedAt := now })
          l₁ l₂ hb (by simp [hepid]) hfq
        rw [hins]
        simp only [Option.map_some', ha, hiqn, JsNum.neg, JsNum.add_num]
        have harith : a + -q + (b + (v + q)) = Q0 := by omega
        rw [harith]
      · rw [importIds]
        have hmap := map_updateFirst (fun i => i.iid) (fun x => x.iid == e.iid)
          (fun i => { i with importedQuantity := i.importedQuantity.add req.iq,
                             updatedAt := now }) (fun x => rfl) db.imports
        simp only [hmap]
        exact hnodup'
    · constructor
      · rw [availPlusSum]
        have hfp := find?_updateFirst_disjoint (fun x => x.pid == tgt)
          (fun x => x.pid == pid)
          (fun p => { p with availableQuantity := p.availableQuantity.add req.iq.neg,
                             updatedAt := now })
          (fun x => rfl)
          (fun x hx => by
            have hxx : x.pid = tgt := by simpa using hx
            simp only [hxx]
            simpa using htgt) db.products
        rw [findProduct]
        simp only []
        rw [hfp, hp', hupd]
        have h1 := sumFor_insert_nomatch pid
          ({ e with importedQuantity := e.importedQuantity.add req.iq, updatedAt := now })
          l₁ l₂ (by simp [hepid]; simpa using htgt)
        have h2 := sumFor_insert_nomatch pid e l₁ l₂ (by simp [hepid]; simpa using htgt)
        simp only [Option.map_some', h1]
        rw [← h2, ← hsplit, hps]
      · rw [importIds]
        have hmap := map_updateFirst (fun i => i.iid) (fun x => x.iid == e.iid)
          (fun i => { i with importedQuantity := i.importedQuantity.add req.iq,
                             updatedAt := now }) (fun x => rfl) db.imports
        simp only [hmap]
        exact hnodup'

theorem removeImport_step {db : DB} {id : String} {now : Nat} {pid : String} {Q0 : Int}
    (hok : (removeImport db id now).2.isOk = true)
    (hnodup : (importIds db).Nodup)
    (hinv : availPlusSum db pid = some (.num Q0)) :
    availPlusSum (removeImport db id now).1 pid = some (.num Q0) ∧
      (importIds (removeImport db id now).1).Nodup := by
  obtain ⟨e, hvalid, hfind, hpvalid⟩ := removeImport_ok_cases hok
  rcases hp : findProduct db pid with _ | p
  · rw [availPlusSum, hp] at hinv
    simp at hinv
  have hps : p.availableQuantity.add (sumFor pid db.imports) = .num Q0 := by
    rw [availPlusSum, hp] at hinv
    simpa using hinv
  obtain ⟨a, s, ha, hsum, has⟩ := JsNum.add_eq_num hps
  have hp' : List.find? (fun x => x.pid == pid) db.products = some p := by
    rw [findProduct] at hp
    exact hp
  rw [removeImport_eq hvalid hfind hpvalid]
  obtain ⟨l₁, l₂, hsplit, hall, hupd, hdel⟩ :=
    updateFirst_of_find? (fun x : ImportDoc => x.iid == id)
      (fun i : ImportDoc => i) hfind
  have hnodupm : (List.map (fun i : ImportDoc => i.iid) db.imports).Nodup := hnodup
  have hnodup2 : (List.map (fun i : ImportDoc => i.iid)
      (deleteFirst (fun i : ImportDoc => i.iid == id) db.imports)).Nodup :=
    (List.Sublist.map (fun i : ImportDoc => i.iid)
      (deleteFirst_sublist (fun i : ImportDoc => i.iid == id) db.imports)).nodup hnodupm
  by_cases hip : e.productId = pid
  · rw [hsplit] at hsum
    obtain ⟨v, b, hv, hb, hvb⟩ := sumFor_extract pid e l₁ l₂ hsum (by simp [hip])
    refine ⟨?_, hnodup2⟩
    rw [availPlusSum]
    have hfp := find?_updateFirst_same (fun x => x.pid == pid)
      (fun p => { p with availableQuantity := p.availableQuantity.add e.importedQuantity,
                         updatedAt := now }) (fun x => rfl) db.products
    rw [hip, findProduct]
    simp only []
    rw [hfp, hp', hdel, hb]
    simp only [Option.map_some', ha, hv, JsNum.add_num]
    have harith : a + v + b = Q0 := by omega
    rw [harith]
  · refine ⟨?_, hnodup2⟩
    rw [availPlusSum]
    have hfp := find?_updateFirst_disjoint (fun x => x.pid == e.productId)
      (fun x => x.pid == pid)
      (fun p => { p with availableQuantity := p.availableQuantity.add e.importedQuantity,
                         updatedAt := now })
      (fun x => rfl)
      (fun x hx => by
        have hxx : x.pid = e.productId := by simpa using hx
        simp only [hxx]
        simpa using hip) db.products
    rw [findProduct]
    simp only []
    rw [hfp, hp', hdel]
    have hnom := sumFor_insert_nomatch pid e l₁ l₂ (by simpa using hip)
    rw [← hnom, ← hsplit]
    simp only [Option.map_some']
    rw [hps]

theorem conservation_inv (ops : List LedgerOp) (db : DB) (pid : String) (Q0 : Int)
    (hinv : availPlusSum db pid = some (.num Q0))
    (hnodup : (importIds db).Nodup)
    (hok : allOk db ops = true)
    (hnum : ∀ op ∈ ops, opNumFor pid op = true) :
    availPlusSum (runOps db ops) pid = some (.num Q0) := by
  induction ops generalizing db with
  | nil => exact hinv
  | cons op rest ih =>
    rw [allOk] at hok
    have hok' := (Bool.and_eq_true _ _).mp hok
    have hok'' := (Bool.and_eq_true _ _).mp hok'.1
    have hok1 : opOk db op = true := hok''.1
    have hfr : opFresh db op = true := hok''.2
    have hokrest : allOk (applyOp db op) rest = true := hok'.2
    rw [runOps]
    cases op with
    | createOp req t f =>
      have hfresh : f ∉ importIds db := by
        rw [opFresh] at hfr
        simpa using hfr
      have hstep := createImport_step hok1 hfresh
        (hnum _ (List.mem_cons_self _ _)) hnodup hinv
      exact ih _ hstep.1 hstep.2 hokrest
        (fun o ho => hnum o (List.mem_cons_of_mem _ ho))
    | removeOp id t =>
      have hstep := removeImport_step hok1 hnodup hinv
      exact ih _ hstep.1 hstep.2 hokrest
        (fun o ho => hnum o (List.mem_cons_of_mem _ ho))

/-- C1 (amended): for a product P with initial stock Q0 and no outstanding imports,
after any finite sequence of CreateImport / RemoveImport
operations executed sequentially, each of which individually succeeds and
in which every CreateImport against P has an `importedQuantity` that
coerces to a genuine number (not NaN), P's `availableQuantity` plus the
sum of `importedQuantity` over all outstanding Import records referencing
P still equals Q0. -/
theorem conservation_after_ledger_ops (db : DB) (pid : String) (Q0 : Int)
    (p : ProductDoc) (ops : List LedgerOp)
    (hfind : findProduct db pid = some p)
    (hq0 : p.availableQuantity = .num Q0)
    (hnoimports : ∀ i ∈ db.imports, (i.productId == pid) = false)
    (hnodup : (importIds db).Nodup)
    (hok : allOk db ops = true)
    (hnum : ∀ op ∈ ops, opNumFor pid op = true) :
    availPlusSum (runOps db ops) pid = some (.num Q0) := by
  apply conservation_inv ops db pid Q0 ?_ hnodup hok hnum
  rw [availPlusSum, hfind, sumFor_eq_zero pid db.imports hnoimports]
  simp [hq0, JsNum.add_num]

/-- C1, witness: importing 4 units and then removing that import on a
10-unit product leaves `availableQuantity + Σ outstanding = 10`. -/
theorem conservation_after_ledger_ops_witness :
    availPlusSum (runOps dbA [LedgerOp.createOp (sampleReq (.num 4)) 1 iidB,
      LedgerOp.removeOp iidB 2]) pidA = some (.num 10) :=
  conservation_after_ledger_ops dbA pidA 10 prodA
    [LedgerOp.createOp (sampleReq (.num 4)) 1 iidB, LedgerOp.removeOp iidB 2]
    rfl rfl (by decide) (by decide) (by decide) (by decide)

/-- C1, counterexample to the claim as stated: a CreateImport whose
`importedQuantity` coerces to NaN individually succeeds (HTTP 201), yet
afterwards `availableQuantity + Σ outstanding` is NaN, not the initial
stock 10. -/
theorem conservation_nan_counterexample :
    (createImport dbA (sampleReq .nan) 1 iidB).2 = .ok iidB ∧
    findProduct dbA pidA = some prodA ∧
    prodA.availableQuantity = .num 10 ∧
    dbA.imports = [] ∧
    availPlusSum (createImport dbA (sampleReq .nan) 1 iidB).1 pidA ≠ some (.num 10) :=
  ⟨rfl, rfl, rfl, rfl, by decide⟩

theorem length_filter_updateFirst {α : Type} (q p : α → Bool) (f : α → α)
    (hq : ∀ x, q (f x) = q x) (l : List α) :
    ((updateFirst p f l).filter q).length = (l.filter q).length := by
  induction l with
  | nil => simp [updateFirst]
  | cons x xs ih =>
    by_cases hx : p x = true
    · rw [updateFirst, if_pos hx, List.filter_cons, List.filter_cons, hq x]
      by_cases hqx : q x = true
      · simp [hqx]
      · simp [hqx]
    · rw [updateFirst, if_neg hx, List.filter_cons, List.filter_cons]
      by_cases hqx : q x = true
      · simp [hqx, ih]
      · simp [hqx, ih]

theorem createImport_atMostOne {db : DB} {req : ImportReq} {now : Nat} {fid : String}
    (h : AtMostOnePerKey db) : AtMostOnePerKey (createImport db req now fid).1 := by
  rcases hpid : req.productId with _ | pid
  · have heq : (createImport db req now fid).1 = db := by simp [createImport, hpid]
    rw [heq]; exact h
  rcases hnm : req.productName with _ | nm
  · have heq : (createImport db req now fid).1 = db := by simp [createImport, hpid, hnm]
    rw [heq]; exact h
  rcases hmail : req.userEmail with _ | email
  · have heq : (createImport db req now fid).1 = db := by
      simp [createImport, hpid, hnm, hmail]
    rw [heq]; exact h
  rcases hiq : req.iqTruthy with _ | _
  · have heq : (createImport db req now fid).1 = db := by
      simp [createImport, hpid, hnm, hmail, hiq]
    rw [heq]; exact h
  rcases hvalid : isValidObjectId pid with _ | _
  · have heq : (createImport db req now fid).1 = db := by
      simp [createImport, hpid, hnm, hmail, hiq, hvalid]
    rw [heq]; exact h
  rcases hfind : findProduct db pid with _ | product
  · have heq : (createImport db req now fid).1 = db := by
      simp [createImport, hpid, hnm, hmail, hiq, hvalid, hfind]
    rw [heq]; exact h
  rcases hlt : JsNum.lt product.availableQuantity req.iq with _ | _
  case true =>
    have heq : (createImport db req now fid).1 = db := by
      simp [createImport, hpid, hnm, hmail, hiq, hvalid, hfind, hlt]
    rw [heq]; exact h
  case false =>
  rcases hkey : findImportByKey db pid email with _ | e
  · rw [createImport_insert_eq hpid hnm hmail hiq hvalid hfind hlt hkey]
    intro pid' email'
    simp only [List.filter_append]
    rw [List.length_append]
    have hnone : (db.imports.filter
        (fun i => i.productId == pid' && i.userEmail == email')).length ≤ 1 := h pid' email'
    by_cases h1 : pid = pid'
    · by_cases h2 : email = email'
      · subst h1; subst h2
        have hz : (db.imports.filter
            (fun i => i.productId == pid && i.userEmail == email)) = [] := by
          rw [List.filter_eq_nil_iff]
          intro a ha
          have := List.find?_eq_none.mp (by rw [findImportByKey] at hkey; exact hkey) a ha
          simpa using this
        rw [hz]
        simp
      · have : (List.filter (fun i => i.productId == pid' && i.userEmail == email')
            [({ iid := fid, productId := pid, productName := nm,
                productImage := req.productImage, price := req.price, rating := req.rating,
                originCountry := req.originCountry, importedQuantity := req.iq,
                userEmail := email, userName := req.userName.getD "Anonymous",
                createdAt := now, updatedAt := now } : ImportDoc)]) = [] := by
          rw [List.filter_eq_nil_iff]
          intro a ha
          simp at ha
          subst ha
          simp [h2]
        rw [this]
        simpa using hnone
    · have : (List.filter (fun i => i.productId == pid' && i.userEmail == email')
          [({ iid := fid, productId := pid, productName := nm,
              productImage := req.productImage, price := req.price, rating := req.rating,
              originCountry := req.originCountry, importedQuantity := req.iq,
              userEmail := email, userName := req.userName.getD "Anonymous",
              createdAt := now, updatedAt := now } : ImportDoc)]) = [] := by
        rw [List.filter_eq_nil_iff]
        intro a ha
        simp at ha
        subst ha
        simp [h1]
      rw [this]
      simpa using hnone
  · rw [createImport_merge_eq hpid hnm hmail hiq hvalid hfind hlt hkey]
    intro pid' email'
    have hlen := length_filter_updateFirst
      (fun i : ImportDoc => i.productId == pid' && i.userEmail == email')
      (fun i : ImportDoc => i.iid == e.iid)
      (fun i : ImportDoc =>
        { i with importedQuantity := i.importedQuantity.add req.iq, updatedAt := now })
      (fun x => rfl) db.imports
    simpa [hlen] using h pid' email'

theorem removeImport_imports_sublist (db : DB) (id : String) (now : Nat) :
    (removeImport db id now).1.imports.Sublist db.imports := by
  rcases hvalid : isValidObjectId id with _ | _
  · simp [removeImport, hvalid]
  rcases hfind : db.imports.find? (fun i => i.iid == id) with _ | e
  · simp [removeImport, hvalid, hfind]
  rcases hpv : isValidObjectId e.productId with _ | _
  · simp [removeImport, hvalid, hfind, hpv]
  · rw [removeImport_eq hvalid hfind hpv]
    exact deleteFirst_sublist _ _

theorem removeImport_atMostOne {db : DB} {id : String} {now : Nat}
    (h : AtMostOnePerKey db) : AtMostOnePerKey (removeImport db id now).1 := by
  intro pid email
  exact le_trans (List.Sublist.length_le (List.Sublist.filter _
    (removeImport_imports_sublist db id now))) (h pid email)

theorem runOps_atMostOne (ops : List LedgerOp) (db : DB)
    (h : AtMostOnePerKey db) : AtMostOnePerKey (runOps db ops) := by
  induction ops generalizing db with
  | nil => exact h
  | cons op rest ih =>
    rw [runOps]
    cases op with
    | createOp req t f => exact ih _ (createImport_atMostOne h)
    | removeOp id t => exact ih _ (removeImport_atMostOne h)

/-- C2: (i) any sequence of ledger operations preserves the
at-most-one-Import-per-(productId, userEmail) invariant; (ii) two
successful CreateImport calls with the same (productId, userEmail) pair,
starting from a store with no Import for that pair and a store-fresh
first insert id, leave exactly one Import record for the pair, and its
`importedQuantity` equals the sum of the two requested quantities. -/
theorem merge_key_uniqueness :
    (∀ (db : DB) (ops : List LedgerOp), AtMostOnePerKey db →
        AtMostOnePerKey (runOps db ops)) ∧
    (∀ (db : DB) (r1 r2 : ImportReq) (t1 t2 : Nat) (f1 f2 : String)
        (pid email : String) (q1 q2 : Int) (i1 i2 : String),
      r1.productId = some pid → r2.productId = some pid →
      r1.userEmail = some email → r2.userEmail = some email →
      r1.iq = .num q1 → r2.iq = .num q2 →
      findImportByKey db pid email = none →
      f1 ∉ importIds db →
      (createImport db r1 t1 f1).2 = .ok i1 →
      (createImport (createImport db r1 t1 f1).1 r2 t2 f2).2 = .ok i2 →
      ∃ m, keyImports (createImport (createImport db r1 t1 f1).1 r2 t2 f2).1
          pid email = [m] ∧
        m.importedQuantity = .num (q1 + q2)) := by
  constructor
  · exact fun db ops h => runOps_atMostOne ops db h
  intro db r1 r2 t1 t2 f1 f2 pid email q1 q2 i1 i2 hpid1 hpid2 hmail1 hmail2
    hq1 hq2 hkey hfresh hok1 hok2
  have hkeyraw : List.find?
      (fun i => i.productId == pid && i.userEmail == email) db.imports = none := by
    rw [findImportByKey] at hkey
    exact hkey
  have hok1' : (createImport db r1 t1 f1).2.isOk = true := by
    rw [hok1]
    rfl
  obtain ⟨pidx, nm1, emailx, product1, hpidx, hnm1, hmailx, hiq1, hvalidx, hfindx, hltx⟩ :=
    createImport_ok_cases hok1'
  obtain rfl : pid = pidx := by
    rw [hpid1] at hpidx
    exact Option.some.inj hpidx
  obtain rfl : email = emailx := by
    rw [hmail1] at hmailx
    exact Option.some.inj hmailx
  have he1 := @createImport_insert_eq db r1 t1 f1 pid nm1 email product1 hpidx hnm1 hmailx hiq1 hvalidx hfindx hltx hkey
  suffices hgen : ∀ (P1 : List ProductDoc) (d1 : ImportDoc),
      d1.productId = pid → d1.userEmail = email → d1.iid = f1 →
      d1.importedQuantity = JsNum.num q1 →
      (createImport ⟨P1, db.imports ++ [d1]⟩ r2 t2 f2).2 = .ok i2 →
      ∃ m, keyImports (createImport ⟨P1, db.imports ++ [d1]⟩ r2 t2 f2).1
          pid email = [m] ∧
        m.importedQuantity = .num (q1 + q2) by
    rw [he1] at hok2 ⊢
    exact hgen _ _ rfl rfl rfl (by simpa using hq1) hok2
  intro P1 d1 hd1p hd1e hd1i hd1q hok2g
  have hok2' : (createImport ⟨P1, db.imports ++ [d1]⟩ r2 t2 f2).2.isOk = true := by
    rw [hok2g]
    rfl
  obtain ⟨pidy, nm2, emaily, product2, hpidy, hnm2, hmaily, hiq2, hvalidy, hfindy, hlty⟩ :=
    createImport_ok_cases hok2'
  obtain rfl : pid = pidy := by
    rw [hpid2] at hpidy
    exact Option.some.inj hpidy
  obtain rfl : email = emaily := by
    rw [hmail2] at hmaily
    exact Option.some.inj hmaily
  have hkey2 : findImportByKey ⟨P1, db.imports ++ [d1]⟩ pid email = some d1 := by
    rw [findImportByKey]
    show List.find? _ (db.imports ++ [d1]) = some d1
    rw [List.find?_append, hkeyraw, Option.none_or]
    exact List.find?_cons_of_pos _ (by simp [hd1p, hd1e])
  have he2 := @createImport_merge_eq ⟨P1, db.imports ++ [d1]⟩ r2 t2 f2 pid nm2 email product2 d1 hpidy hnm2 hmaily hiq2 hvalidy hfindy hlty hkey2
  rw [he2]
  have hnof : ∀ x ∈ db.imports, (x.iid == d1.iid) = false := by
    intro x hx
    rw [hd1i]
    simp only [beq_eq_false_iff_ne]
    intro hcontra
    exact hfresh (by rw [← hcontra]; exact List.mem_map_of_mem _ hx)
  have hupdL := updateFirst_append_left (fun i : ImportDoc => i.iid == d1.iid)
    (fun i : ImportDoc =>
      { i with importedQuantity := i.importedQuantity.add r2.iq, updatedAt := t2 })
    db.imports [d1] hnof
  have hupd1 : updateFirst (fun i : ImportDoc => i.iid == d1.iid)
      (fun i : ImportDoc =>
        { i with importedQuantity := i.importedQuantity.add r2.iq, updatedAt := t2 })
      [d1] =
      [{ d1 with importedQuantity := d1.importedQuantity.add r2.iq, updatedAt := t2 }] := by
    rw [updateFirst, if_pos (by simp)]
  refine ⟨{ d1 with importedQuantity := d1.importedQuantity.add r2.iq, updatedAt := t2 },
    ?_, ?_⟩
  · rw [keyImports]
    show List.filter _ (updateFirst _ _ (db.imports ++ [d1])) = _
    rw [hupdL, hupd1, List.filter_append]
    rw [show List.filter (fun i => i.productId == pid && i.userEmail == email)
        db.imports = [] from List.filter_eq_nil_iff.mpr
        (fun a ha => by simpa using List.find?_eq_none.mp hkeyraw a ha)]
    rw [List.filter_cons, if_pos (by simp [hd1p, hd1e])]
    simp
  · simp [hd1q, hq2, JsNum.add_num]

/-- C2, witness: concrete 10-unit product, user imports 4 units and then 3
more; exactly one Import remains, with quantity 7; and the invariant holds
after running the first operation. -/
theorem merge_key_uniqueness_witness :
    AtMostOnePerKey (runOps dbA [LedgerOp.createOp (sampleReq (.num 4)) 1 iidB]) ∧
    (∃ m, keyImports (createImport (createImport dbA (sampleReq (.num 4)) 1 iidB).1
        (sampleReq (.num 3)) 2 pidC).1 pidA "a@x.com" = [m] ∧
      m.importedQuantity = .num (4 + 3)) :=
  ⟨merge_key_uniqueness.1 dbA [LedgerOp.createOp (sampleReq (.num 4)) 1 iidB]
      (fun pid email => by simp [dbA]),
   merge_key_uniqueness.2 dbA (sampleReq (.num 4)) (sampleReq (.num 3)) 1 2 iidB pidC
      pidA "a@x.com" 4 3 iidB iidB rfl rfl rfl rfl rfl rfl rfl (by decide) rfl rfl⟩

/-- C3: for an existing product and a CreateImport request that passes the
presence checks, whose coerced `importedQuantity` is strictly greater than
the product's `availableQuantity`, the handler fails with the
insufficient-stock error (HTTP 400) and neither collection changes. -/
theorem insufficient_stock_rejected (db : DB) (req : ImportReq) (now : Nat)
    (fid : String) (pid nm email : String) (p : ProductDoc)
    (hpid : req.productId = some pid) (hnm : req.productName = some nm)
    (hmail : req.userEmail = some email) (hiq : req.iqTruthy = true)
    (hvalid : isValidObjectId pid = true)
    (hfind : findProduct db pid = some p)
    (hlt : JsNum.lt p.availableQuantity req.iq = true) :
    createImport db req now fid = (db, .error .insufficientStock) ∧
      httpStatus .insufficientStock = 400 := by
  refine ⟨?_, rfl⟩
  simp [createImport, hpid, hnm, hmail, hiq, hvalid, hfind, hlt]

/-- C3, witness: requesting 11 units from a 10-unit product is rejected
with the insufficient-stock error and the store is unchanged. -/
theorem insufficient_stock_rejected_witness :
    createImport dbA (sampleReq (.num 11)) 1 iidB = (dbA, .error .insufficientStock) ∧
      httpStatus .insufficientStock = 400 :=
  insufficient_stock_rejected dbA (sampleReq (.num 11)) 1 iidB pidA "Tea" "a@x.com" prodA
    rfl rfl rfl rfl (by decide) rfl (by decide)

/-- C4: DeleteProduct with a well-formed id: with N ≥ 1 outstanding imports
it fails with the Conflict error carrying N and the store is
unchanged; for an existing product with zero outstanding imports (stored
product ids being distinct) it succeeds and the product is unretrievable
afterwards. -/
theorem delete_product_guard (db : DB) (id : String)
    (hvalid : isValidObjectId id = true) :
    (0 < (refsFor db id).length →
      deleteProduct db id = (db, .error (.conflict (refsFor db id).length)) ∧
        httpStatus (.conflict (refsFor db id).length) = 400) ∧
    ((refsFor db id).length = 0 →
      ∀ p, findProduct db id = some p →
        (db.products.map (fun x => x.pid)).Nodup →
        (deleteProduct db id).2 = .ok () ∧
          findProduct (deleteProduct db id).1 id = none) := by
  constructor
  · intro hpos
    refine ⟨?_, rfl⟩
    simp [deleteProduct, hvalid, hpos]
  · intro hzero p hp hnodup
    have heq : deleteProduct db id =
        ({ db with products := deleteFirst (fun x => x.pid == id) db.products }, .ok ()) := by
      simp [deleteProduct, hvalid, hzero, hp]
    rw [heq]
    refine ⟨rfl, ?_⟩
    rw [findProduct]
    exact find?_deleteFirst_nodup (fun x : ProductDoc => x.pid) id hnodup

/-- C4, witness: with one outstanding import the delete is refused with
Conflict(1) and the store unchanged; with no outstanding imports the
delete succeeds and the product is gone. -/
theorem delete_product_guard_witness :
    (deleteProduct dbAB pidA = (dbAB, .error (.conflict (refsFor dbAB pidA).length)) ∧
      httpStatus (.conflict (refsFor dbAB pidA).length) = 400) ∧
    ((deleteProduct dbA pidA).2 = .ok () ∧
      findProduct (deleteProduct dbA pidA).1 pidA = none) :=
  ⟨(delete_product_guard dbAB pidA (by decide)).1 (by decide),
   (delete_product_guard dbA pidA (by decide)).2 (by decide) prodA rfl (by decide)⟩

/-- C5: RemoveImport of an existing import record (well-formed ids,
distinct stored import ids) whose referenced product exists increases
that product's `availableQuantity` by exactly the import's
`importedQuantity`, and afterwards the import is unretrievable. -/
theorem remove_import_restores (db : DB) (now : Nat) (e : ImportDoc) (p : ProductDoc)
    (a v : Int)
    (hnodup : (importIds db).Nodup)
    (hmem : e ∈ db.imports)
    (hvalid : isValidObjectId e.iid = true)
    (hpvalid : isValidObjectId e.productId = true)
    (hfind : findProduct db e.productId = some p)
    (ha : p.availableQuantity = .num a)
    (hv : e.importedQuantity = .num v) :
    (removeImport db e.iid now).2 = .ok () ∧
    (∃ p', findProduct (removeImport db e.iid now).1 e.productId = some p' ∧
      p'.availableQuantity = .num (a + v)) ∧
    (removeImport db e.iid now).1.imports.find? (fun i => i.iid == e.iid) = none := by
  have hnodupm : (db.imports.map (fun i : ImportDoc => i.iid)).Nodup := hnodup
  have hfindi : db.imports.find? (fun i => i.iid == e.iid) = some e :=
    find?_mem_nodup (fun i => i.iid) hnodupm hmem
  rw [removeImport_eq hvalid hfindi hpvalid]
  refine ⟨rfl, ?_, ?_⟩
  · have hfp := find?_updateFirst_same (fun x => x.pid == e.productId)
      (fun p => { p with availableQuantity := p.availableQuantity.add e.importedQuantity,
                         updatedAt := now }) (fun x => rfl) db.products
    refine ⟨{ p with
                availableQuantity := p.availableQuantity.add e.importedQuantity,
                updatedAt := now }, ?_, ?_⟩
    · rw [findProduct]
      show List.find? _ (updateFirst _ _ db.products) = _
      rw [hfp, show List.find? (fun x => x.pid == e.productId) db.products = some p from
        by rw [findProduct] at hfind; exact hfind]
      rfl
    · simp [ha, hv, JsNum.add_num]
  · show List.find? (fun i : ImportDoc => i.iid == e.iid)
        (deleteFirst (fun i : ImportDoc => i.iid == e.iid) db.imports) = none
    exact find?_deleteFirst_nodup (fun i : ImportDoc => i.iid) e.iid hnodupm

/-- C5, witness: removing the 4-unit import restores the 10-unit product
to 14 units and the import is gone. -/
theorem remove_import_restores_witness :
    (removeImport dbAB iidB 2).2 = .ok () ∧
    (∃ p', findProduct (removeImport dbAB iidB 2).1 pidA = some p' ∧
      p'.availableQuantity = .num (10 + 4)) ∧
    (removeImport dbAB iidB 2).1.imports.find? (fun i => i.iid == iidB) = none :=
  remove_import_restores dbAB 2 impB prodA 10 4 (by decide) (by decide) (by decide)
    (by decide) rfl rfl rfl

theorem JsNum.lt_nan (u : JsNum) : JsNum.lt u .nan = false := by
  cases u <;> rfl

theorem createProduct_insert_eq {db : DB} {req : ProductReq} {now : Nat} {fid : String}
    {nm img oc eml : String}
    (hnm : req.productName = some nm) (himg : req.productImage = some img)
    (hpr : req.priceTruthy = true) (hoc : req.originCountry = some oc)
    (hrt : req.ratingTruthy = true) (haq : req.aqTruthy = true)
    (heml : req.userEmail = some eml) :
    createProduct db req now fid =
      ({ db with products := db.products ++
          [{ pid := fid, productName := nm, productImage := img, price := req.price,
             originCountry := oc, rating := req.rating,
             availableQuantity := req.availableQuantity, userEmail := eml,
             userName := req.userName.getD "Anonymous", createdAt := now,
             updatedAt := now }] }, .ok fid) := by
  simp [createProduct, hnm, himg, hpr, hoc, hrt, haq, heml]

/-- C6 (amended): a numeric field whose coercion yields NaN is NOT
rejected by either create path: only falsy raw values fail the presence
check, so a truthy raw value that parses to NaN is accepted and the NaN
is stored.  For POST /products the inserted product carries NaN
`availableQuantity`; for POST /imports a NaN quantity additionally passes
the availability check (NaN comparisons are false) and the inserted import
carries NaN `importedQuantity`. -/
theorem nan_not_rejected :
    (∀ (db : DB) (req : ProductReq) (now : Nat) (fid : String) (nm img oc eml : String),
      req.productName = some nm → req.productImage = some img →
      req.priceTruthy = true → req.originCountry = some oc →
      req.ratingTruthy = true → req.aqTruthy = true →
      req.userEmail = some eml → req.availableQuantity = .nan →
      findProduct db fid = none →
      (createProduct db req now fid).2 = .ok fid ∧
        Option.map (fun x => x.availableQuantity)
          (findProduct (createProduct db req now fid).1 fid) = some .nan) ∧
    (∀ (db : DB) (req : ImportReq) (now : Nat) (fid : String) (pid nm email : String)
        (p : ProductDoc),
      req.productId = some pid → req.productName = some nm →
      req.userEmail = some email → req.iqTruthy = true → req.iq = .nan →
      isValidObjectId pid = true → findProduct db pid = some p →
      findImportByKey db pid email = none →
      (createImport db req now fid).2 = .ok fid ∧
        Option.map (fun i => i.importedQuantity)
          (findImportByKey (createImport db req now fid).1 pid email) = some .nan) := by
  constructor
  · intro db req now fid nm img oc eml hnm himg hpr hoc hrt haq heml haqn hfresh
    rw [createProduct_insert_eq hnm himg hpr hoc hrt haq heml]
    refine ⟨rfl, ?_⟩
    rw [findProduct]
    show Option.map _ (List.find? _ (db.products ++ [_])) = _
    rw [List.find?_append]
    rw [show List.find? (fun x => x.pid == fid) db.products = none from
      by rw [findProduct] at hfresh; exact hfresh]
    rw [Option.none_or]
    rw [List.find?_cons_of_pos _ (by simp)]
    simp [haqn]
  · intro db req now fid pid nm email p hpid hnm hmail hiq hiqn hvalid hfind hkey
    have hlt : JsNum.lt p.availableQuantity req.iq = false := by
      rw [hiqn]
      exact JsNum.lt_nan _
    rw [createImport_insert_eq hpid hnm hmail hiq hvalid hfind hlt hkey]
    refine ⟨rfl, ?_⟩
    rw [findImportByKey]
    show Option.map _ (List.find? _ (db.imports ++ [_])) = _
    rw [List.find?_append]
    rw [show List.find? (fun i => i.productId == pid && i.userEmail == email)
        db.imports = none from by rw [findImportByKey] at hkey; exact hkey]
    rw [Option.none_or]
    rw [List.find?_cons_of_pos _ (by simp)]
    simp [hiqn]

/-- C6, witness: a product request whose truthy availableQuantity parses
to NaN is accepted and stored with NaN stock; an import request whose
truthy quantity parses to NaN is accepted and stored with NaN quantity. -/
theorem nan_not_rejected_witness :
    ((createProduct dbA (sampleProductReq .nan) 3 pidC).2 = .ok pidC ∧
      Option.map (fun x => x.availableQuantity)
        (findProduct (createProduct dbA (sampleProductReq .nan) 3 pidC).1 pidC) =
        some .nan) ∧
    ((createImport dbA (sampleReq .nan) 1 iidB).2 = .ok iidB ∧
      Option.map (fun i => i.importedQuantity)
        (findImportByKey (createImport dbA (sampleReq .nan) 1 iidB).1 pidA
          "a@x.com") = some .nan) :=
  ⟨nan_not_rejected.1 dbA (sampleProductReq .nan) 3 pidC "Rice" "img" "BD" "owner@x.com"
      rfl rfl rfl rfl rfl rfl rfl rfl rfl,
   nan_not_rejected.2 dbA (sampleReq .nan) 1 iidB pidA "Tea" "a@x.com" prodA
      rfl rfl rfl rfl rfl (by decide) rfl rfl⟩

/-- C6, counterexample to the claim as stated: POST /products with a
truthy `availableQuantity` whose coercion is NaN succeeds (201) and
stores the NaN value instead of failing validation. -/
theorem nan_validation_counterexample :
    (createProduct dbA (sampleProductReq .nan) 3 pidC).2 = .ok pidC ∧
    Option.map (fun x => x.availableQuantity)
      (findProduct (createProduct dbA (sampleProductReq .nan) 3 pidC).1 pidC) =
      some .nan :=
  ⟨rfl, rfl⟩

/-- C7 (amended): the DELETE handlers validate the URL id with
`ObjectId.isValid` and reject a malformed token with a 400 validation
error, leaving the store untouched; POST /imports does not pre-validate
productId — on a malformed token `new ObjectId(productId)` throws and the
catch-all returns the generic 500, not a 400 validation failure. -/
theorem id_validation (db : DB) (id : String) (now : Nat)
    (hbad : isValidObjectId id = false) :
    removeImport db id now = (db, .error (.validation "Invalid import ID")) ∧
    deleteProduct db id = (db, .error (.validation "Invalid product ID")) ∧
    httpStatus (.validation "Invalid import ID") = 400 ∧
    httpStatus (.validation "Invalid product ID") = 400 ∧
    (∀ (req : ImportReq) (fid : String) (nm email : String),
      req.productId = some id → req.productName = some nm →
      req.userEmail = some email → req.iqTruthy = true →
      createImport db req now fid = (db, .error .unexpected) ∧
        httpStatus .unexpected = 500) := by
  refine ⟨by simp [removeImport, hbad], by simp [deleteProduct, hbad], rfl, rfl, ?_⟩
  intro req fid nm email hpid hnm hmail hiq
  refine ⟨?_, rfl⟩
  simp [createImport, hpid, hnm, hmail, hiq, hbad]

/-- C7, witness: on the malformed token "zzz" both DELETE handlers return
the 400 validation error with the store untouched, while POST /imports
returns the generic 500. -/
theorem id_validation_witness :
    removeImport dbA badToken 1 = (dbA, .error (.validation "Invalid import ID")) ∧
    deleteProduct dbA badToken = (dbA, .error (.validation "Invalid product ID")) ∧
    (createImport dbA { sampleReq (.num 4) with productId := some badToken } 1 iidB =
      (dbA, .error .unexpected) ∧
      httpStatus .unexpected = 500) :=
  ⟨(id_validation dbA badToken 1 (by decide)).1,
   (id_validation dbA badToken 1 (by decide)).2.1,
   (id_validation dbA badToken 1 (by decide)).2.2.2.2
     { sampleReq (.num 4) with productId := some badToken } iidB "Tea" "a@x.com"
     rfl rfl rfl rfl⟩

/-- C7, counterexample to the claim as stated: a malformed productId in
POST /imports is not rejected with a 400 validation failure — the thrown
ObjectId construction surfaces as the generic 500. -/
theorem malformed_id_counterexample :
    (createImport dbA { sampleReq (.num 4) with productId := some badToken } 1 iidB).2 =
      .error .unexpected ∧
    httpStatus .unexpected = 500 ∧ httpStatus .unexpected ≠ 400 :=
  ⟨rfl, rfl, by decide⟩

/-- C8 (amended): for a well-formed productId that does not resolve to an
existing product, DeleteProduct returns NotFound (404) only when no imports
reference the id; when some import references it the guard runs
first and the handler returns Conflict (400) instead. -/
theorem delete_missing_product (db : DB) (id : String)
    (hvalid : isValidObjectId id = true)
    (hmissing : findProduct db id = none) :
    ((refsFor db id).length = 0 →
      deleteProduct db id = (db, .error (.notFound "Product not found")) ∧
      httpStatus (.notFound "Product not found") = 404) ∧
    (0 < (refsFor db id).length →
      deleteProduct db id = (db, .error (.conflict (refsFor db id).length))) := by
  constructor
  · intro hz
    refine ⟨?_, rfl⟩
    simp [deleteProduct, hvalid, hz, hmissing]
  · intro hpos
    simp [deleteProduct, hvalid, hpos]

/-- C8, witness: deleting a well-formed but absent product id with no imports
referencing it yields NotFound; with a dangling import
referencing the absent id, the guard yields Conflict instead. -/
theorem delete_missing_product_witness :
    (deleteProduct dbA pidC = (dbA, .error (.notFound "Product not found")) ∧
      httpStatus (.notFound "Product not found") = 404) ∧
    deleteProduct dbOrphan pidA =
      (dbOrphan, .error (.conflict (refsFor dbOrphan pidA).length)) :=
  ⟨(delete_missing_product dbA pidC (by decide) rfl).1 (by decide),
   (delete_missing_product dbOrphan pidA (by decide) rfl).2 (by decide)⟩

/-- C8, counterexample to the claim as stated: the id `pidA` is well
formed and resolves to no product in `dbOrphan`, yet DeleteProduct
returns Conflict(1) (HTTP 400), not NotFound (404), because a dangling import
references the id. -/
theorem delete_missing_product_counterexample :
    findProduct dbOrphan pidA = none ∧
    deleteProduct dbOrphan pidA = (dbOrphan, .error (.conflict 1)) ∧
    httpStatus (.conflict 1) = 400 ∧ httpStatus (.conflict 1) ≠ 404 :=
  ⟨rfl, rfl, rfl, by decide⟩

/-- C9: a CreateImport that merges into the existing import for the same
(productId, userEmail) pair leaves that record's snapshot fields
(productName, productImage, price, rating, originCountry) and its
createdAt unchanged: the stored record afterwards is exactly the old one
with only importedQuantity incremented and updatedAt refreshed. -/
theorem merge_preserves_snapshot (db : DB) (req : ImportReq) (now : Nat) (fid : String)
    (pid nm email : String) (p : ProductDoc) (e : ImportDoc)
    (hpid : req.productId = some pid) (hnm : req.productName = some nm)
    (hmail : req.userEmail = some email) (hiq : req.iqTruthy = true)
    (hvalid : isValidObjectId pid = true)
    (hfind : findProduct db pid = some p)
    (hlt : JsNum.lt p.availableQuantity req.iq = false)
    (hkey : findImportByKey db pid email = some e)
    (hnodup : (importIds db).Nodup) :
    (createImport db req now fid).2 = .ok e.iid ∧
    (createImport db req now fid).1.imports.find? (fun i => i.iid == e.iid) =
      some { e with importedQuantity := e.importedQuantity.add req.iq,
                    updatedAt := now } := by
  rw [createImport_merge_eq hpid hnm hmail hiq hvalid hfind hlt hkey]
  refine ⟨rfl, ?_⟩
  have hnodupm : (db.imports.map (fun i : ImportDoc => i.iid)).Nodup := hnodup
  have hemem : e ∈ db.imports :=
    List.mem_of_find?_eq_some (by rw [findImportByKey] at hkey; exact hkey)
  have hfindi : db.imports.find? (fun i => i.iid == e.iid) = some e :=
    find?_mem_nodup (fun i => i.iid) hnodupm hemem
  show List.find? (fun i : ImportDoc => i.iid == e.iid)
      (updateFirst (fun i : ImportDoc => i.iid == e.iid)
        (fun i : ImportDoc =>
          { i with importedQuantity := i.importedQuantity.add req.iq,
                   updatedAt := now }) db.imports) = _
  rw [find?_updateFirst_same (fun i : ImportDoc => i.iid == e.iid)
    (fun i : ImportDoc =>
      { i with importedQuantity := i.importedQuantity.add req.iq, updatedAt := now })
    (fun x => rfl) db.imports, hfindi]
  rfl

/-- C9, witness: importing 3 more units into the existing 4-unit import
updates only the quantity (to 7) and updatedAt; all snapshot fields and
createdAt keep their old values. -/
theorem merge_preserves_snapshot_witness :
    (createImport dbAB (sampleReq (.num 3)) 5 pidC).2 = .ok iidB ∧
    (createImport dbAB (sampleReq (.num 3)) 5 pidC).1.imports.find?
        (fun i => i.iid == iidB) =
      some { impB with importedQuantity := impB.importedQuantity.add (.num 3),
                       updatedAt := 5 } :=
  merge_preserves_snapshot dbAB (sampleReq (.num 3)) 5 pidC pidA "Tea" "a@x.com"
    prodA impB rfl rfl rfl rfl (by decide) rfl (by decide) rfl (by decide)

theorem find?_prefix_false {α : Type} (p : α → Bool) (l₁ l₂ : List α) (e : α)
    (hne : e ∉ l₁) (hfind : (l₁ ++ e :: l₂).find? p = some e) :
    ∀ x ∈ l₁, p x = false := by
  induction l₁ with
  | nil => simp
  | cons x xs ih =>
    intro y hy
    by_cases hx : p x = true
    · rw [List.cons_append, List.find?_cons_of_pos _ hx] at hfind
      obtain rfl : x = e := by
        injection hfind
      exact absurd (List.mem_cons_self _ _) hne
    · rw [List.cons_append, List.find?_cons_of_neg _ hx] at hfind
      rcases List.mem_cons.mp hy with rfl | hmem
      · simpa using hx
      · exact ih (fun h => hne (List.mem_cons_of_mem _ h)) hfind y hmem

/-- C10: a CreateImport whose quantity coerces to a negative number,
against an existing product with non-negative stock, passes the
availability check and succeeds: the product's `availableQuantity`
increases by the magnitude of the quantity (a - q = a + |q|), and the
Import record for the key absorbs the negative contribution (a fresh
record with the negative quantity, or the existing one decremented). -/
theorem negative_quantity_import (db : DB) (req : ImportReq) (now : Nat) (fid : String)
    (pid nm email : String) (p : ProductDoc) (q a : Int)
    (hpid : req.productId = some pid) (hnm : req.productName = some nm)
    (hmail : req.userEmail = some email) (hiq : req.iqTruthy = true)
    (hvalid : isValidObjectId pid = true)
    (hfind : findProduct db pid = some p)
    (hq : req.iq = .num q) (hneg : q < 0)
    (ha : p.availableQuantity = .num a) (hnn : 0 ≤ a)
    (hnodup : (importIds db).Nodup) :
    (createImport db req now fid).2.isOk = true ∧
    Option.map (fun x : ProductDoc => x.availableQuantity)
      (findProduct (createImport db req now fid).1 pid) = some (.num (a - q)) ∧
    Option.map (fun i : ImportDoc => i.importedQuantity)
      (findImportByKey (createImport db req now fid).1 pid email) =
      some (((Option.map (fun i : ImportDoc => i.importedQuantity)
        (findImportByKey db pid email)).getD (.num 0)).add (.num q)) := by
  have hlt : JsNum.lt p.availableQuantity req.iq = false := by
    rw [ha, hq]
    simp only [JsNum.lt, decide_eq_false_iff_not]
    omega
  have hp' : List.find? (fun x => x.pid == pid) db.products = some p := by
    rw [findProduct] at hfind
    exact hfind
  have harith : a + -q = a - q := by omega
  rcases hkey : findImportByKey db pid email with _ | e
  · rw [createImport_insert_eq hpid hnm hmail hiq hvalid hfind hlt hkey]
    refine ⟨rfl, ?_, ?_⟩
    · rw [findProduct]
      show Option.map _ (List.find? _ (updateFirst _ _ db.products)) = _
      rw [find?_updateFirst_same (fun x : ProductDoc => x.pid == pid)
        (fun x : ProductDoc =>
          { x with availableQuantity := x.availableQuantity.add req.iq.neg,
                   updatedAt := now }) (fun x => rfl) db.products, hp']
      simp [ha, hq, JsNum.neg, JsNum.add_num, harith]
    · rw [findImportByKey]
      show Option.map _ (List.find? _ (db.imports ++ [_])) = _
      rw [List.find?_append]
      rw [show List.find? (fun i => i.productId == pid && i.userEmail == email)
          db.imports = none from by rw [findImportByKey] at hkey; exact hkey]
      rw [Option.none_or, List.find?_cons_of_pos _ (by simp)]
      simp [hq, JsNum.add_num]
  · rw [createImport_merge_eq hpid hnm hmail hiq hvalid hfind hlt hkey]
    have hnodupm : (db.imports.map (fun i : ImportDoc => i.iid)).Nodup := hnodup
    have hkeyraw : List.find?
        (fun i => i.productId == pid && i.userEmail == email) db.imports = some e := by
      rw [findImportByKey] at hkey
      exact hkey
    have hemem : e ∈ db.imports := List.mem_of_find?_eq_some hkeyraw
    have hekp := List.find?_some hkeyraw
    have hfind_iid : db.imports.find? (fun x => x.iid == e.iid) = some e :=
      find?_mem_nodup (fun i => i.iid) hnodupm hemem
    obtain ⟨l₁, l₂, hsplit, hall, hupd, hdel⟩ :=
      updateFirst_of_find? (fun x : ImportDoc => x.iid == e.iid)
        (fun i : ImportDoc =>
          { i with importedQuantity := i.importedQuantity.add req.iq,
                   updatedAt := now }) hfind_iid
    have hnotin : e ∉ l₁ := by
      intro hin
      rw [hsplit, List.map_append, List.map_cons] at hnodupm
      exact (List.nodup_append.mp hnodupm).2.2
        (List.mem_map_of_mem _ hin) (by simp)
    have hallkey : ∀ x ∈ l₁,
        (x.productId == pid && x.userEmail == email) = false := by
      apply find?_prefix_false _ l₁ l₂ e hnotin
      rw [← hsplit]
      exact hkeyraw
    refine ⟨rfl, ?_, ?_⟩
    · rw [findProduct]
      show Option.map _ (List.find? _ (updateFirst _ _ db.products)) = _
      rw [find?_updateFirst_same (fun x : ProductDoc => x.pid == pid)
        (fun x : ProductDoc =>
          { x with availableQuantity := x.availableQuantity.add req.iq.neg,
                   updatedAt := now }) (fun x => rfl) db.products, hp']
      simp [ha, hq, JsNum.neg, JsNum.add_num, harith]
    · rw [findImportByKey]
      show Option.map _ (List.find? _ (updateFirst _ _ db.imports)) = _
      rw [hupd, List.find?_append]
      rw [show List.find? (fun i => i.productId == pid && i.userEmail == email)
          l₁ = none from List.find?_eq_none.mpr
            (fun x hx => by simp [hallkey x hx])]
      rw [Option.none_or, List.find?_cons_of_pos _ (by simpa using hekp)]
      simp [hq, JsNum.add_num]

/-- C10, witness: importing "-3" units of the 10-unit product succeeds,
raises the stock to 13, and records an import of -3 units. -/
theorem negative_quantity_import_witness :
    (createImport dbA (sampleReq (.num (-3))) 1 iidB).2.isOk = true ∧
    Option.map (fun x : ProductDoc => x.availableQuantity)
      (findProduct (createImport dbA (sampleReq (.num (-3))) 1 iidB).1 pidA) =
      some (.num (10 - (-3))) ∧
    Option.map (fun i : ImportDoc => i.importedQuantity)
      (findImportByKey (createImport dbA (sampleReq (.num (-3))) 1 iidB).1 pidA
        "a@x.com") =
      some (((Option.map (fun i : ImportDoc => i.importedQuantity)
        (findImportByKey dbA pidA "a@x.com")).getD (.num 0)).add (.num (-3))) :=
  negative_quantity_import dbA (sampleReq (.num (-3))) 1 iidB pidA "Tea" "a@x.com"
    prodA (-3) 10 rfl rfl rfl rfl (by decide) rfl rfl (by decide) rfl (by decide)
    (by decide)
